import Mathlib

/-!
Verification of the FUNSD object-detection notebook
(`Funsd_Object_Detection_bert_large.ipynb`).

The notebook fine-tunes a BERT encoder with a multi-branch feature-fusion
head (`RobertaClass`).  We embed the tensor operations of the forward pass
shallowly: a float tensor of shape (batch, width) is a `List (List ℚ)`,
integer (long) tensors are `List (List Int)`, and every operation whose
PyTorch counterpart raises a runtime error on a shape mismatch returns
`Option`, with `none` standing for the dimension-mismatch error.

External library pieces are parameters of the model:
* the pretrained encoder `l1` is a function field of the model structure
  (its weights are opaque to this development);
* the saturating nonlinearity `torch.nn.Tanh` is an arbitrary scalar
  function `σ : ℚ → ℚ` applied elementwise;
* `torch.nn.Dropout(0.1)` is given its sampled Bernoulli mask explicitly:
  in training mode it zeroes the masked positions and rescales the rest by
  1/(1-0.1); in evaluation mode (`model.eval()`) it is the identity and
  ignores the mask, exactly as in PyTorch.
-/

namespace Funsd

/-- A float vector (one row of a 2-D tensor). -/
abbrev Vec := List ℚ

/-- A 2-D float tensor: list of rows. -/
abbrev Mat := List Vec

/-- Dot product of two vectors (truncating, as only well-shaped calls reach it). -/
def dot (w x : Vec) : ℚ := (List.zipWith (fun a b => a * b) w x).sum

/-- `torch.nn.Linear(inF, outF)`: weight matrix of `outF` rows of width `inF`
plus a bias vector of length `outF`. -/
structure Linear where
  inF : Nat
  outF : Nat
  weight : Mat
  bias : Vec

/-- The shapes `torch.nn.Linear(nIn, nOut)` guarantees for a freshly
constructed layer. -/
def Linear.hasDims (l : Linear) (nIn nOut : Nat) : Prop :=
  l.inF = nIn ∧ l.outF = nOut ∧ l.weight.length = nOut ∧
    (∀ r ∈ l.weight, r.length = nIn) ∧ l.bias.length = nOut

/-- Batched application of a linear layer to a (batch, inF) tensor.
PyTorch raises a dimension-mismatch error when the last dimension of the
input differs from `inF`; we return `none` there. -/
def Linear.apply (l : Linear) (x : Mat) : Option Mat :=
  if x.all (fun r => r.length == l.inF) then
    some (x.map fun r => List.zipWith (fun w b => dot w r + b) l.weight l.bias)
  else none

/-- Elementwise application of the scalar nonlinearity (`torch.nn.Tanh()(x)`). -/
def mapTanh (σ : ℚ → ℚ) (x : Mat) : Mat := x.map fun r => r.map σ

/-- One row of dropout in training mode: `mask j = true` zeroes position `j`,
surviving entries are rescaled by `1/(1-p)` with `p = 0.1`. -/
def maskRow (mask : Nat → Bool) : Nat → Vec → Vec
  | _, [] => []
  | j, v :: rest => (if mask j then 0 else v * (10 / 9)) :: maskRow mask (j + 1) rest

/-- All rows of dropout in training mode, row index threaded through. -/
def dropoutRows (mask : Nat → Nat → Bool) : Nat → Mat → Mat
  | _, [] => []
  | i, r :: rest => maskRow (mask i) 0 r :: dropoutRows mask (i + 1) rest

/-- `torch.nn.Dropout(0.1)`: in training mode zero a (sampled) subset of the
activations and rescale the rest; in evaluation mode the identity. -/
def dropout (training : Bool) (mask : Nat → Nat → Bool) (x : Mat) : Mat :=
  match training with
  | true => dropoutRows mask 0 x
  | false => x

/-- `torch.nn.MaxPool2d((2,1), stride=None)` on one example's (H, W) slab:
consecutive row pairs are reduced by elementwise maximum. -/
def maxPool21 (slab : Mat) : Mat :=
  match slab with
  | a :: b :: rest => List.zipWith max a b :: maxPool21 rest
  | _ => []

/-- `torch.cat((x.unsqueeze(1), y.unsqueeze(1)), 1)`: stack two (batch, W)
tensors into a (batch, 2, W) tensor.  `torch.cat` raises unless the batch
lengths and the row widths agree. -/
def catUnsqueeze1 (x y : Mat) : Option (List Mat) :=
  if x.length == y.length
      && (List.zipWith (fun a b => a.length == b.length) x y).all id then
    some (List.zipWith (fun a b => [a, b]) x y)
  else none

/-- `self.pooling(t).squeeze(1)` on a (batch, 2, W) tensor: max-pool each
slab down to one row and drop the singleton dimension. -/
def poolSqueeze1 (t : List Mat) : Mat := t.map fun slab => (maxPool21 slab).headD []

/-- `torch.cat((x, y), 1)` on two 2-D tensors: rows are concatenated;
`torch.cat` raises unless the batch lengths agree. -/
def catDim1 (x y : Mat) : Option Mat :=
  if x.length == y.length then some (List.zipWith (fun a b => a ++ b) x y) else none

/-- `hidden_state[:, 0]`: the first-position (aggregate) hidden state of each
example in the batch. -/
def firstToken (hs : List Mat) : Mat := hs.map fun s => s.headD []

/-- The `RobertaClass` module of the notebook.  `l1` is the pretrained
`AutoModel` encoder, abstracted as a function from the three long tensors to
the per-example hidden-state sequences `output_1[0]`; the remaining fields
are exactly the layers `__init__` constructs (`hidden0` and `hidden4` are
constructed but never used by `forward`, and `self.pooling` is the fixed
`MaxPool2d((2,1))` embedded as `maxPool21`). -/
structure RobertaClass where
  l1 : List (List Int) → List (List Int) → List (List Int) → List Mat
  pre_classifier : Linear
  h1 : Linear
  h2 : Linear
  h3 : Linear
  h4 : Linear
  hidden0 : Linear
  hidden1 : Linear
  hidden2 : Linear
  hidden3 : Linear
  hidden4 : Linear
  classifier : Linear

/-- The layer dimensions `RobertaClass.__init__` configures. -/
def RobertaClass.init_wf (m : RobertaClass) : Prop :=
  m.pre_classifier.hasDims 768 768 ∧ m.h1.hasDims 768 768 ∧ m.h2.hasDims 768 768 ∧
    m.h3.hasDims 768 768 ∧ m.h4.hasDims 768 768 ∧ m.hidden0.hasDims 2304 256 ∧
    m.hidden1.hasDims 2048 768 ∧ m.hidden2.hasDims 3072 512 ∧
    m.hidden3.hasDims 3072 3072 ∧ m.hidden4.hasDims 1024 768 ∧
    m.classifier.hasDims 512 4

/-- The projection stage `x = layer(x); x = Tanh()(x); x = dropout(x)`
that `forward` applies after each pooling step and to the visual input. -/
def linStep (l : Linear) (σ : ℚ → ℚ) (training : Bool) (mask : Nat → Nat → Bool)
    (x : Mat) : Option Mat :=
  (l.apply x).bind fun z : Mat =>
  some (dropout training mask (mapTanh σ z))

/-- The pairwise fusion block `forward` repeats four times:
`torch.cat((x.unsqueeze(1), y.unsqueeze(1)), 1)`, then
`self.pooling(...).squeeze(1)`, then a dedicated linear layer, `Tanh`, and
`self.dropout`. -/
def fuseStep (l : Linear) (σ : ℚ → ℚ) (training : Bool) (mask : Nat → Nat → Bool)
    (x y : Mat) : Option Mat :=
  (catUnsqueeze1 x y).bind fun t : List Mat =>
  linStep l σ training mask (poolSqueeze1 t)

/-- `RobertaClass.forward`, translated block by block from the notebook.
`training` is the module's train/eval flag and `masks i` is the Bernoulli
mask sampled for the `i`-th of the eight `self.dropout` call sites.  Note
that the final `torch.cat` concatenates the raw `char_density` argument
(exactly as the source does), while the fused `density` branch computed
just above it is left unused; the `pos_emb` argument is accepted but never
used. -/
def RobertaClass.forward (m : RobertaClass) (σ : ℚ → ℚ) (training : Bool)
    (masks : Nat → Nat → Nat → Bool)
    (input_ids attention_mask token_type_ids : List (List Int))
    (visual_feature char_density char_number parsing1 parsing2
      gcn_bert_base pos_emb visual : Mat) : Option Mat :=
  let output_1 := m.l1 input_ids attention_mask token_type_ids
  let hidden_state := output_1
  let pooler := firstToken hidden_state
  (linStep m.pre_classifier σ training (masks 0) pooler).bind fun pooler : Mat =>
  (fuseStep m.h1 σ training (masks 1) pooler gcn_bert_base).bind fun pooler : Mat =>
  (fuseStep m.h2 σ training (masks 2) parsing1 parsing2).bind fun parsing : Mat =>
  (fuseStep m.h3 σ training (masks 3) char_density char_number).bind fun density : Mat =>
  (linStep m.hidden1 σ training (masks 4) visual).bind fun visual : Mat =>
  (fuseStep m.h4 σ training (masks 5) visual visual_feature).bind fun visual : Mat =>
  (catDim1 pooler visual).bind fun pooler : Mat =>
  (catDim1 pooler parsing).bind fun pooler : Mat =>
  (catDim1 pooler char_density).bind fun pooler : Mat =>
  (linStep m.hidden3 σ training (masks 6) pooler).bind fun pooler : Mat =>
  (linStep m.hidden2 σ training (masks 7) pooler).bind fun pooler : Mat =>
  m.classifier.apply pooler

/-- Modelled from the spec: step 4 of the spec ("Concatenate the three fused
branches, project through two further linear+nonlinearity+dropout stages,
and emit final class logits") concatenates the *fused* density branch.
Identical to `RobertaClass.forward` except that the final `torch.cat`
receives the output `density` of the density fusion block instead of the
raw `char_density` input. -/
def RobertaClass.forwardSpecFusedCat (m : RobertaClass) (σ : ℚ → ℚ) (training : Bool)
    (masks : Nat → Nat → Nat → Bool)
    (input_ids attention_mask token_type_ids : List (List Int))
    (visual_feature char_density char_number parsing1 parsing2
      gcn_bert_base pos_emb visual : Mat) : Option Mat :=
  let output_1 := m.l1 input_ids attention_mask token_type_ids
  let hidden_state := output_1
  let pooler := firstToken hidden_state
  (linStep m.pre_classifier σ training (masks 0) pooler).bind fun pooler : Mat =>
  (fuseStep m.h1 σ training (masks 1) pooler gcn_bert_base).bind fun pooler : Mat =>
  (fuseStep m.h2 σ training (masks 2) parsing1 parsing2).bind fun parsing : Mat =>
  (fuseStep m.h3 σ training (masks 3) char_density char_number).bind fun density : Mat =>
  (linStep m.hidden1 σ training (masks 4) visual).bind fun visual : Mat =>
  (fuseStep m.h4 σ training (masks 5) visual visual_feature).bind fun visual : Mat =>
  (catDim1 pooler visual).bind fun pooler : Mat =>
  (catDim1 pooler parsing).bind fun pooler : Mat =>
  (catDim1 pooler density).bind fun pooler : Mat =>
  (linStep m.hidden3 σ training (masks 6) pooler).bind fun pooler : Mat =>
  (linStep m.hidden2 σ training (masks 7) pooler).bind fun pooler : Mat =>
  m.classifier.apply pooler

/-- `forward` as a state transformer on the module: the source's `forward`
assigns no attribute of `self`, so the module component of the result is
the input module, unchanged. -/
def RobertaClass.forwardS (m : RobertaClass) (σ : ℚ → ℚ) (training : Bool)
    (masks : Nat → Nat → Nat → Bool)
    (input_ids attention_mask token_type_ids : List (List Int))
    (visual_feature char_density char_number parsing1 parsing2
      gcn_bert_base pos_emb visual : Mat) : RobertaClass × Option Mat :=
  (m, m.forward σ training masks input_ids attention_mask token_type_ids
        visual_feature char_density char_number parsing1 parsing2
        gcn_bert_base pos_emb visual)

/-- `calcuate_accuracy(preds, targets)` (sic): `(preds==targets).sum().item()`,
the number of positions where the elementwise comparison holds. -/
def calcuate_accuracy {α : Type} [DecidableEq α] (preds targets : List α) : Nat :=
  (List.zipWith (fun p t => if p = t then (1 : Nat) else 0) preds targets).sum

/-- The index component `big_idx` of `torch.max(r, dim=1)` for one row:
the index of the first maximal entry. -/
def argmaxAux : Nat → Nat → ℚ → Vec → Nat
  | _, best, _, [] => best
  | i, best, bestv, v :: rest =>
      if bestv < v then argmaxAux (i + 1) i v rest
      else argmaxAux (i + 1) best bestv rest

/-- Row argmax (0 on an empty row, which `torch.max` would reject). -/
def argmaxRow (r : Vec) : Nat :=
  match r with
  | [] => 0
  | v :: rest => argmaxAux 1 0 v rest

/-- One batch `data` as produced by the data loader: a dict from field name
to tensor.  `longs` holds the 2-D integer tensors (`ids`, `mask`,
`token_type_ids`), `labels` the 1-D `targets` tensor, and `fields` the 2-D
float feature tensors. -/
structure BatchData where
  longs : String → List (List Int)
  labels : String → List Int
  fields : String → Mat

/-- The `gcn_bert_base = data['gcn_bert_base'].to(device, dtype=torch.float)`
binding of `train`. -/
def train_gcn_bert_base_arg (data : BatchData) : Mat := data.fields "gcn_bert_base"

/-- The `gcn_bert_base = data['gcn_bert_large'].to(device, dtype=torch.float)`
binding of `valid`. -/
def valid_gcn_bert_base_arg (data : BatchData) : Mat := data.fields "gcn_bert_large"

/-- The `gcn_bert_base = data['gcn_bert_base'].to(device, dtype=torch.float)`
binding of `test_label_generator`. -/
def test_gcn_bert_base_arg (data : BatchData) : Mat := data.fields "gcn_bert_base"

/-- The model invocation `train` makes on one batch (training mode). -/
def train_model_call (m : RobertaClass) (σ : ℚ → ℚ)
    (masks : Nat → Nat → Nat → Bool) (data : BatchData) : Option Mat :=
  m.forward σ true masks (data.longs "ids") (data.longs "mask")
    (data.longs "token_type_ids") (data.fields "visual_feature")
    (data.fields "char_density") (data.fields "char_number")
    (data.fields "parsing1") (data.fields "parsing2")
    (train_gcn_bert_base_arg data) (data.fields "pos_emb")
    (data.fields "visual")

/-- The model invocation `valid` makes on one batch (`model.eval()`, so the
training flag is false). -/
def valid_model_call (m : RobertaClass) (σ : ℚ → ℚ)
    (masks : Nat → Nat → Nat → Bool) (data : BatchData) : Option Mat :=
  m.forward σ false masks (data.longs "ids") (data.longs "mask")
    (data.longs "token_type_ids") (data.fields "visual_feature")
    (data.fields "char_density") (data.fields "char_number")
    (data.fields "parsing1") (data.fields "parsing2")
    (valid_gcn_bert_base_arg data) (data.fields "pos_emb")
    (data.fields "visual")

/-- The model invocation `test_label_generator` makes on one batch
(`model.eval()`). -/
def test_model_call (m : RobertaClass) (σ : ℚ → ℚ)
    (masks : Nat → Nat → Nat → Bool) (data : BatchData) : Option Mat :=
  m.forward σ false masks (data.longs "ids") (data.longs "mask")
    (data.longs "token_type_ids") (data.fields "visual_feature")
    (data.fields "char_density") (data.fields "char_number")
    (data.fields "parsing1") (data.fields "parsing2")
    (test_gcn_bert_base_arg data) (data.fields "pos_emb")
    (data.fields "visual")

/-- The running statistics accumulated by the `valid` loop. -/
structure ValidStats where
  tr_loss : ℚ
  n_correct : Nat
  nb_tr_steps : Nat
  nb_tr_examples : Nat
  output_list : List Int

/-- One iteration of the `valid` loop on batch `data`: run the model in
evaluation mode, accumulate the loss, the `torch.max(...,dim=1)` prediction
indices and the `calcuate_accuracy` count.  An error state (`none`)
propagates; the module state is threaded unchanged. -/
def validStep (σ : ℚ → ℚ) (masks : Nat → Nat → Nat → Bool)
    (lossF : Mat → List Int → ℚ) (st : RobertaClass × Option ValidStats)
    (data : BatchData) : RobertaClass × Option ValidStats :=
  match st with
  | (model, none) => (model, none)
  | (model, some s) =>
    match valid_model_call model σ masks data with
    | none => (model, none)
    | some outputs =>
      let targets := data.labels "targets"
      let loss := lossF outputs targets
      let big_idx : List Int := outputs.map fun r => (argmaxRow r : Int)
      (model, some { tr_loss := s.tr_loss + loss,
                     n_correct := s.n_correct + calcuate_accuracy big_idx targets,
                     nb_tr_steps := s.nb_tr_steps + 1,
                     nb_tr_examples := s.nb_tr_examples + targets.length,
                     output_list := s.output_list ++ big_idx })

/-- `valid(model, testing_loader)`: the evaluation loop.  The module state
is threaded through explicitly; `lossF` stands for the external
`torch.nn.CrossEntropyLoss`.  A batch on which the forward pass raises a
shape error propagates the error (`none`) but leaves the module untouched.
(`outputs.squeeze()` of the source is a no-op on the (batch, 4) logit
tensors of batches with at least two examples and is not modelled.) -/
def valid (m : RobertaClass) (σ : ℚ → ℚ) (masks : Nat → Nat → Nat → Bool)
    (lossF : Mat → List Int → ℚ) (testing_loader : List BatchData) :
    RobertaClass × Option (ℚ × ℚ × List Int) :=
  let final := testing_loader.foldl (validStep σ masks lossF)
    ((m, some ⟨0, 0, 0, 0, []⟩) : RobertaClass × Option ValidStats)
  match final with
  | (model, none) => (model, none)
  | (model, some s) =>
      (model, some (s.tr_loss / (s.nb_tr_steps : ℚ),
                    (s.n_correct * 100 : ℚ) / (s.nb_tr_examples : ℚ),
                    s.output_list))

/-- A pandas frame, reduced to the columns the alignment claims concern. -/
structure DataFrame where
  text : List String
  label : List Int
  visual_embedding : List Vec

/-- One of the independently loaded visual tables (`visual_train.pkl`,
`visual_test.pkl`). -/
structure VisualTable where
  visual_embedding : List Vec

/-- The notebook cell
`df_train['visual_embedding'] = test_visual['visual_embedding']`,
`df_test['visual_embedding'] = train_visual['visual_embedding']`:
each frame's visual column is overwritten with the *other* split's visual
table column. -/
def assignVisualEmbeddings (df_train df_test : DataFrame)
    (train_visual test_visual : VisualTable) : DataFrame × DataFrame :=
  ({ df_train with visual_embedding := test_visual.visual_embedding },
   { df_test with visual_embedding := train_visual.visual_embedding })

/-- A linear layer with all-zero weights of the given dimensions. -/
def zeroLinear (nIn nOut : Nat) : Linear :=
  ⟨nIn, nOut, List.replicate nOut (List.replicate nIn 0), List.replicate nOut 0⟩

/-- The n×n identity matrix. -/
def idMat (n : Nat) : Mat :=
  (List.range n).map fun i => (List.range n).map fun j => if i = j then 1 else 0

/-- A linear layer acting as the identity on width-`n` inputs. -/
def idLinear (n : Nat) : Linear := ⟨n, n, idMat n, List.replicate n 0⟩

/-- A `RobertaClass` with the exact dimensions of `__init__` and all-zero
weights; the encoder stub maps each example to a single all-zero hidden
state of width 768. -/
def zeroModel : RobertaClass where
  l1 := fun ids _ _ => ids.map fun _ => [List.replicate 768 0]
  pre_classifier := zeroLinear 768 768
  h1 := zeroLinear 768 768
  h2 := zeroLinear 768 768
  h3 := zeroLinear 768 768
  h4 := zeroLinear 768 768
  hidden0 := zeroLinear 2304 256
  hidden1 := zeroLinear 2048 768
  hidden2 := zeroLinear 3072 512
  hidden3 := zeroLinear 3072 3072
  hidden4 := zeroLinear 1024 768
  classifier := zeroLinear 512 4

/-- A miniature `RobertaClass` (feature width 1, concatenated width 4) with
identity weights, small enough to evaluate the forward pass in full. -/
def tinyModel : RobertaClass where
  l1 := fun ids _ _ => ids.map fun _ => [[0]]
  pre_classifier := idLinear 1
  h1 := idLinear 1
  h2 := idLinear 1
  h3 := idLinear 1
  h4 := idLinear 1
  hidden0 := idLinear 1
  hidden1 := idLinear 1
  hidden2 := idLinear 4
  hidden3 := idLinear 4
  hidden4 := idLinear 1
  classifier := idLinear 4

/-- The all-false mask family: no activation is dropped. -/
def noMask : Nat → Nat → Nat → Bool := fun _ _ _ => false

/-! ### Shape infrastructure -/

/-- A (rows, width) shape statement about a 2-D tensor. -/
def Shape (x : Mat) (n w : Nat) : Prop := x.length = n ∧ ∀ r ∈ x, r.length = w

lemma mem_zipWith_imp {α β γ : Type} {f : α → β → γ} :
    ∀ {x : List α} {y : List β} {c : γ}, c ∈ List.zipWith f x y →
      ∃ a ∈ x, ∃ b ∈ y, c = f a b := by
  intro x
  induction x with
  | nil => intro y c h; simp [List.zipWith] at h
  | cons a as ih =>
    intro y c h
    cases y with
    | nil => simp [List.zipWith] at h
    | cons b bs =>
      simp only [List.zipWith, List.mem_cons] at h
      rcases h with h | h
      · exact ⟨a, by simp, b, by simp, h⟩
      · obtain ⟨a2, ha, b2, hb, hc⟩ := ih h
        exact ⟨a2, by simp [ha], b2, by simp [hb], hc⟩

lemma widths_all_true {x y : Mat} {w : Nat} (hx : ∀ r ∈ x, r.length = w)
    (hy : ∀ r ∈ y, r.length = w) :
    (List.zipWith (fun a b => a.length == b.length) x y).all id = true := by
  rw [List.all_eq_true]
  intro q hq
  obtain ⟨a, ha, b, hb, rfl⟩ := mem_zipWith_imp hq
  simp [hx a ha, hy b hb]

lemma Linear.apply_eq_some {l : Linear} {x : Mat} (h : ∀ r ∈ x, r.length = l.inF) :
    l.apply x = some (x.map fun r => List.zipWith (fun w b => dot w r + b) l.weight l.bias) := by
  unfold Linear.apply
  rw [if_pos]
  rw [List.all_eq_true]
  intro r hr
  simp [h r hr]

lemma Linear.apply_shape {l : Linear} {x : Mat} {nIn nOut n : Nat}
    (hl : l.hasDims nIn nOut) (hx : Shape x n nIn) :
    ∃ y, l.apply x = some y ∧ Shape y n nOut := by
  obtain ⟨hIn, hOut, hw, hwr, hb⟩ := hl
  obtain ⟨hlen, hrow⟩ := hx
  refine ⟨_, Linear.apply_eq_some (fun r hr => by rw [hrow r hr, hIn]), ?_, ?_⟩
  · simp [hlen]
  · intro r hr
    simp only [List.mem_map] at hr
    obtain ⟨r0, _, rfl⟩ := hr
    rw [List.length_zipWith, hw, hb]
    exact min_self nOut

lemma Linear.apply_length {l : Linear} {x y : Mat} (h : l.apply x = some y) :
    y.length = x.length := by
  unfold Linear.apply at h
  split at h
  · cases h; simp
  · simp at h

lemma Linear.apply_rowlen {l : Linear} {x y : Mat} (h : l.apply x = some y) :
    ∀ r ∈ y, r.length = min l.weight.length l.bias.length := by
  unfold Linear.apply at h
  split at h
  · cases h
    intro r hr
    simp only [List.mem_map] at hr
    obtain ⟨r0, _, rfl⟩ := hr
    exact List.length_zipWith _ _ _
  · simp at h

lemma mapTanh_length (σ : ℚ → ℚ) (x : Mat) : (mapTanh σ x).length = x.length := by
  simp [mapTanh]

lemma mapTanh_rowlen {σ : ℚ → ℚ} {x : Mat} {w : Nat} (h : ∀ r ∈ x, r.length = w) :
    ∀ r ∈ mapTanh σ x, r.length = w := by
  intro r hr
  simp only [mapTanh, List.mem_map] at hr
  obtain ⟨r0, hr0, rfl⟩ := hr
  simp [h r0 hr0]

lemma maskRow_length (mask : Nat → Bool) :
    ∀ (j : Nat) (v : Vec), (maskRow mask j v).length = v.length := by
  intro j v
  induction v generalizing j with
  | nil => rfl
  | cons a rest ih => simp [maskRow, ih]

lemma dropoutRows_length (mask : Nat → Nat → Bool) :
    ∀ (i : Nat) (x : Mat), (dropoutRows mask i x).length = x.length := by
  intro i x
  induction x generalizing i with
  | nil => rfl
  | cons r rest ih => simp [dropoutRows, ih]

lemma dropoutRows_rowlen {mask : Nat → Nat → Bool} {w : Nat} :
    ∀ {i : Nat} {x : Mat}, (∀ r ∈ x, r.length = w) →
      ∀ r ∈ dropoutRows mask i x, r.length = w := by
  intro i x
  induction x generalizing i with
  | nil => intro _ r hr; simp [dropoutRows] at hr
  | cons r0 rest ih =>
    intro hx r hr
    simp only [dropoutRows, List.mem_cons] at hr
    rcases hr with rfl | hr
    · rw [maskRow_length]
      exact hx r0 (by simp)
    · exact ih (fun s hs => hx s (by simp [hs])) r hr

lemma dropout_length (training : Bool) (mask : Nat → Nat → Bool) (x : Mat) :
    (dropout training mask x).length = x.length := by
  cases training
  · rfl
  · exact dropoutRows_length mask 0 x

lemma dropout_rowlen {training : Bool} {mask : Nat → Nat → Bool} {x : Mat} {w : Nat}
    (h : ∀ r ∈ x, r.length = w) : ∀ r ∈ dropout training mask x, r.length = w := by
  cases training
  · exact h
  · exact dropoutRows_rowlen h

lemma mapTanh_shape {σ : ℚ → ℚ} {x : Mat} {n w : Nat} (h : Shape x n w) :
    Shape (mapTanh σ x) n w :=
  ⟨by rw [mapTanh_length, h.1], mapTanh_rowlen h.2⟩

lemma dropout_shape {training : Bool} {mask : Nat → Nat → Bool} {x : Mat} {n w : Nat}
    (h : Shape x n w) : Shape (dropout training mask x) n w :=
  ⟨by rw [dropout_length, h.1], dropout_rowlen h.2⟩

lemma catUnsqueeze1_eq_some {x y : Mat} {w : Nat} (hlen : x.length = y.length)
    (hx : ∀ r ∈ x, r.length = w) (hy : ∀ r ∈ y, r.length = w) :
    catUnsqueeze1 x y = some (List.zipWith (fun a b => [a, b]) x y) := by
  have hc : (x.length == y.length
      && (List.zipWith (fun a b => a.length == b.length) x y).all id) = true := by
    rw [Bool.and_eq_true]
    exact ⟨by simp [hlen], widths_all_true hx hy⟩
  unfold catUnsqueeze1
  rw [if_pos hc]

lemma catUnsqueeze1_inv {x y : Mat} {t : List Mat} (h : catUnsqueeze1 x y = some t) :
    t = List.zipWith (fun a b => [a, b]) x y ∧ x.length = y.length := by
  unfold catUnsqueeze1 at h
  split at h
  · cases h
    rename_i hc
    rw [Bool.and_eq_true] at hc
    exact ⟨rfl, by simpa using hc.1⟩
  · simp at h

lemma poolSqueeze1_pair (x y : Mat) :
    poolSqueeze1 (List.zipWith (fun a b => [a, b]) x y)
      = List.zipWith (fun a b => List.zipWith max a b) x y := by
  unfold poolSqueeze1
  rw [List.map_zipWith]
  rfl

lemma poolSqueeze1_length (t : List Mat) : (poolSqueeze1 t).length = t.length := by
  simp [poolSqueeze1]

lemma zip_max_shape {x y : Mat} {n w : Nat} (hx : Shape x n w) (hy : Shape y n w) :
    Shape (List.zipWith (fun a b => List.zipWith max a b) x y) n w := by
  constructor
  · rw [List.length_zipWith, hx.1, hy.1]
    exact min_self n
  · intro r hr
    obtain ⟨a, ha, b, hb, rfl⟩ := mem_zipWith_imp hr
    rw [List.length_zipWith, hx.2 a ha, hy.2 b hb]
    exact min_self w

lemma catDim1_eq_some {x y : Mat} (h : x.length = y.length) :
    catDim1 x y = some (List.zipWith (fun a b => a ++ b) x y) := by
  unfold catDim1
  rw [if_pos (by simp [h])]

lemma catDim1_inv {x y z : Mat} (h : catDim1 x y = some z) :
    z = List.zipWith (fun a b => a ++ b) x y ∧ x.length = y.length := by
  unfold catDim1 at h
  split at h
  · cases h
    rename_i hc
    exact ⟨rfl, by simpa using hc⟩
  · simp at h

lemma catDim1_shape {x y : Mat} {n w1 w2 : Nat} (hx : Shape x n w1) (hy : Shape y n w2) :
    ∃ z, catDim1 x y = some z ∧ Shape z n (w1 + w2) := by
  refine ⟨_, catDim1_eq_some (by rw [hx.1, hy.1]), ?_, ?_⟩
  · rw [List.length_zipWith, hx.1, hy.1]
    exact min_self n
  · intro r hr
    obtain ⟨a, ha, b, hb, rfl⟩ := mem_zipWith_imp hr
    rw [List.length_append, hx.2 a ha, hy.2 b hb]

lemma linStep_eq_some {l : Linear} {σ : ℚ → ℚ} {training : Bool}
    {mask : Nat → Nat → Bool} {x y : Mat} (h : l.apply x = some y) :
    linStep l σ training mask x = some (dropout training mask (mapTanh σ y)) := by
  unfold linStep
  rw [h, Option.some_bind]

lemma linStep_shape (l : Linear) (σ : ℚ → ℚ) (training : Bool)
    (mask : Nat → Nat → Bool) {x : Mat} {nIn nOut n : Nat}
    (hl : l.hasDims nIn nOut) (hx : Shape x n nIn) :
    ∃ z, linStep l σ training mask x = some z ∧ Shape z n nOut := by
  obtain ⟨y, hy, hys⟩ := Linear.apply_shape hl hx
  exact ⟨_, linStep_eq_some hy, dropout_shape (mapTanh_shape hys)⟩

lemma linStep_inv {l : Linear} {σ : ℚ → ℚ} {training : Bool}
    {mask : Nat → Nat → Bool} {x z : Mat} (h : linStep l σ training mask x = some z) :
    z.length = x.length ∧
      ∀ r ∈ z, r.length = min l.weight.length l.bias.length := by
  unfold linStep at h
  cases happ : l.apply x with
  | none => rw [happ] at h; simp at h
  | some y =>
    rw [happ, Option.some_bind] at h
    cases h
    constructor
    · rw [dropout_length, mapTanh_length]
      exact Linear.apply_length happ
    · exact dropout_rowlen (mapTanh_rowlen (Linear.apply_rowlen happ))

lemma fuseStep_shape (l : Linear) (σ : ℚ → ℚ) (training : Bool)
    (mask : Nat → Nat → Bool) {x y : Mat} {nIn nOut n : Nat}
    (hl : l.hasDims nIn nOut) (hx : Shape x n nIn) (hy : Shape y n nIn) :
    ∃ z, fuseStep l σ training mask x y = some z ∧ Shape z n nOut := by
  have hfuse : Shape (poolSqueeze1 (List.zipWith (fun a b => [a, b]) x y)) n nIn := by
    rw [poolSqueeze1_pair]
    exact zip_max_shape hx hy
  obtain ⟨z, hz, hzs⟩ := linStep_shape l σ training mask hl hfuse
  refine ⟨z, ?_, hzs⟩
  unfold fuseStep
  rw [catUnsqueeze1_eq_some (by rw [hx.1, hy.1]) hx.2 hy.2, Option.some_bind, hz]

lemma fuseStep_inv {l : Linear} {σ : ℚ → ℚ} {training : Bool}
    {mask : Nat → Nat → Bool} {x y z : Mat} (h : fuseStep l σ training mask x y = some z) :
    z.length = x.length ∧
      ∀ r ∈ z, r.length = min l.weight.length l.bias.length := by
  unfold fuseStep at h
  cases hcat : catUnsqueeze1 x y with
  | none => rw [hcat] at h; simp at h
  | some t =>
    rw [hcat, Option.some_bind] at h
    obtain ⟨rfl, hlen⟩ := catUnsqueeze1_inv hcat
    obtain ⟨hz1, hz2⟩ := linStep_inv h
    refine ⟨?_, hz2⟩
    rw [hz1, poolSqueeze1_length, List.length_zipWith, hlen]
    exact min_self _

lemma firstToken_length (hs : List Mat) : (firstToken hs).length = hs.length := by
  simp [firstToken]

/-- The complete shape analysis of `forward`: with the `__init__` layer
dimensions, a batch-preserving encoder producing width-768 aggregate states,
width-768 auxiliary features, and a width-2048 visual embedding, the forward
pass succeeds and produces one width-4 logit row per example. -/
lemma forward_shape (m : RobertaClass) (σ : ℚ → ℚ) (training : Bool)
    (masks : Nat → Nat → Nat → Bool)
    (ids amask tt : List (List Int)) (vf cd cn p1 p2 gcn pe vis : Mat) (n : Nat)
    (hwf : m.init_wf)
    (hl1len : (m.l1 ids amask tt).length = n)
    (hl1w : ∀ s ∈ m.l1 ids amask tt, (s.headD []).length = 768)
    (hvf : Shape vf n 768) (hcd : Shape cd n 768) (hcn : Shape cn n 768)
    (hp1 : Shape p1 n 768) (hp2 : Shape p2 n 768) (hgcn : Shape gcn n 768)
    (hvis : Shape vis n 2048) :
    ∃ out, m.forward σ training masks ids amask tt vf cd cn p1 p2 gcn pe vis = some out ∧
      Shape out n 4 := by
  obtain ⟨wPre, wh1, wh2, wh3, wh4, wh0, whid1, whid2, whid3, whid4, wcls⟩ := hwf
  have hpool0 : Shape (firstToken (m.l1 ids amask tt)) n 768 := by
    constructor
    · rw [firstToken_length, hl1len]
    · intro r hr
      simp only [firstToken, List.mem_map] at hr
      obtain ⟨s, hs, rfl⟩ := hr
      exact hl1w s hs
  obtain ⟨p0, hp0, hp0s⟩ := linStep_shape m.pre_classifier σ training (masks 0) wPre hpool0
  obtain ⟨pl, hpl, hpls⟩ := fuseStep_shape m.h1 σ training (masks 1) wh1 hp0s hgcn
  obtain ⟨pr, hpr, hprs⟩ := fuseStep_shape m.h2 σ training (masks 2) wh2 hp1 hp2
  obtain ⟨de, hde, hdes⟩ := fuseStep_shape m.h3 σ training (masks 3) wh3 hcd hcn
  obtain ⟨vi, hvi, hvis1⟩ := linStep_shape m.hidden1 σ training (masks 4) whid1 hvis
  obtain ⟨vi2, hvi2, hvi2s⟩ := fuseStep_shape m.h4 σ training (masks 5) wh4 hvis1 hvf
  obtain ⟨c1, hc1, hc1s⟩ := catDim1_shape hpls hvi2s
  obtain ⟨c2, hc2, hc2s⟩ := catDim1_shape hc1s hprs
  obtain ⟨c3, hc3, hc3s⟩ := catDim1_shape hc2s hcd
  obtain ⟨p3, hp3, hp3s⟩ := linStep_shape m.hidden3 σ training (masks 6) whid3 hc3s
  obtain ⟨p4, hp4, hp4s⟩ := linStep_shape m.hidden2 σ training (masks 7) whid2 hp3s
  obtain ⟨out, hout, houts⟩ := Linear.apply_shape wcls hp4s
  refine ⟨out, ?_, houts⟩
  simp only [RobertaClass.forward, hp0, Option.some_bind, hpl, hpr, hde, hvi, hvi2,
    hc1, hc2, hc3, hp3, hp4, hout]

lemma catDim1_length {x y z : Mat} (h : catDim1 x y = some z) : z.length = x.length := by
  obtain ⟨rfl, hlen⟩ := catDim1_inv h
  rw [List.length_zipWith, hlen]
  exact min_self _

/-- Whenever `forward` succeeds, the batch dimension of the logits is the
batch dimension the encoder produced and every logit row is one output of
the classifier layer. -/
lemma forward_inv {m : RobertaClass} {σ : ℚ → ℚ} {training : Bool}
    {masks : Nat → Nat → Nat → Bool} {ids amask tt : List (List Int)}
    {vf cd cn p1 p2 gcn pe vis out : Mat}
    (h : m.forward σ training masks ids amask tt vf cd cn p1 p2 gcn pe vis = some out) :
    out.length = (m.l1 ids amask tt).length ∧
      ∀ r ∈ out, r.length = min m.classifier.weight.length m.classifier.bias.length := by
  simp only [RobertaClass.forward] at h
  cases h0 : linStep m.pre_classifier σ training (masks 0) (firstToken (m.l1 ids amask tt)) with
  | none => rw [h0, Option.none_bind] at h; exact absurd h (by simp)
  | some p0 =>
  rw [h0, Option.some_bind] at h
  cases h1 : fuseStep m.h1 σ training (masks 1) p0 gcn with
  | none => rw [h1, Option.none_bind] at h; exact absurd h (by simp)
  | some pl =>
  rw [h1, Option.some_bind] at h
  cases h2 : fuseStep m.h2 σ training (masks 2) p1 p2 with
  | none => rw [h2, Option.none_bind] at h; exact absurd h (by simp)
  | some pr =>
  rw [h2, Option.some_bind] at h
  cases h3 : fuseStep m.h3 σ training (masks 3) cd cn with
  | none => rw [h3, Option.none_bind] at h; exact absurd h (by simp)
  | some de =>
  rw [h3, Option.some_bind] at h
  cases h4 : linStep m.hidden1 σ training (masks 4) vis with
  | none => rw [h4, Option.none_bind] at h; exact absurd h (by simp)
  | some vi =>
  rw [h4, Option.some_bind] at h
  cases h5 : fuseStep m.h4 σ training (masks 5) vi vf with
  | none => rw [h5, Option.none_bind] at h; exact absurd h (by simp)
  | some vi2 =>
  rw [h5, Option.some_bind] at h
  cases h6 : catDim1 pl vi2 with
  | none => rw [h6, Option.none_bind] at h; exact absurd h (by simp)
  | some c1 =>
  rw [h6, Option.some_bind] at h
  cases h7 : catDim1 c1 pr with
  | none => rw [h7, Option.none_bind] at h; exact absurd h (by simp)
  | some c2 =>
  rw [h7, Option.some_bind] at h
  cases h8 : catDim1 c2 cd with
  | none => rw [h8, Option.none_bind] at h; exact absurd h (by simp)
  | some c3 =>
  rw [h8, Option.some_bind] at h
  cases h9 : linStep m.hidden3 σ training (masks 6) c3 with
  | none => rw [h9, Option.none_bind] at h; exact absurd h (by simp)
  | some p3 =>
  rw [h9, Option.some_bind] at h
  cases h10 : linStep m.hidden2 σ training (masks 7) p3 with
  | none => rw [h10, Option.none_bind] at h; exact absurd h (by simp)
  | some p4 =>
  rw [h10, Option.some_bind] at h
  refine ⟨?_, Linear.apply_rowlen h⟩
  rw [Linear.apply_length h, (linStep_inv h10).1, (linStep_inv h9).1,
    catDim1_length h8, catDim1_length h7, catDim1_length h6,
    (fuseStep_inv h1).1, (linStep_inv h0).1, firstToken_length]

/-- An n×w all-zero matrix. -/
def constMat (n w : Nat) : Mat := List.replicate n (List.replicate w 0)

lemma constMat_shape (n w : Nat) : Shape (constMat n w) n w := by
  constructor
  · simp [constMat]
  · intro r hr
    simp only [constMat] at hr
    rw [List.eq_of_mem_replicate hr]
    simp

lemma zeroLinear_hasDims (nIn nOut : Nat) : (zeroLinear nIn nOut).hasDims nIn nOut := by
  refine ⟨rfl, rfl, by simp [zeroLinear], ?_, by simp [zeroLinear]⟩
  intro r hr
  simp only [zeroLinear] at hr
  rw [List.eq_of_mem_replicate hr]
  simp

lemma zeroModel_init_wf : zeroModel.init_wf :=
  ⟨zeroLinear_hasDims 768 768, zeroLinear_hasDims 768 768, zeroLinear_hasDims 768 768,
    zeroLinear_hasDims 768 768, zeroLinear_hasDims 768 768, zeroLinear_hasDims 2304 256,
    zeroLinear_hasDims 2048 768, zeroLinear_hasDims 3072 512, zeroLinear_hasDims 3072 3072,
    zeroLinear_hasDims 1024 768, zeroLinear_hasDims 512 4⟩

lemma zeroModel_l1_length (ids amask tt : List (List Int)) :
    (zeroModel.l1 ids amask tt).length = ids.length := by
  show (ids.map fun _ => [List.replicate 768 (0 : ℚ)]).length = ids.length
  rw [List.length_map]

lemma zeroModel_l1_width (ids amask tt : List (List Int)) :
    ∀ s ∈ zeroModel.l1 ids amask tt, (s.headD []).length = 768 := by
  intro s hs
  have hs2 : s ∈ ids.map fun _ => [List.replicate 768 (0 : ℚ)] := hs
  simp only [List.mem_map] at hs2
  obtain ⟨_, _, rfl⟩ := hs2
  rw [List.headD_cons, List.length_replicate]

lemma natBeq_comm (a b : Nat) : (a == b) = (b == a) := by
  by_cases h : a = b
  · subst h; rfl
  · simp [h, Ne.symm h]

lemma widths_check_comm : ∀ (x y : Mat),
    (List.zipWith (fun a b => a.length == b.length) x y).all id =
    (List.zipWith (fun a b => a.length == b.length) y x).all id := by
  intro x
  induction x with
  | nil => intro y; cases y <;> rfl
  | cons a as ih =>
    intro y
    cases y with
    | nil => rfl
    | cons b bs =>
      simp only [List.zipWith, List.all_cons, ih bs]
      rw [natBeq_comm]

lemma catUnsqueeze1_cond_comm (x y : Mat) :
    (x.length == y.length
        && (List.zipWith (fun a b => a.length == b.length) x y).all id) =
    (y.length == x.length
        && (List.zipWith (fun a b => a.length == b.length) y x).all id) := by
  rw [widths_check_comm, natBeq_comm]

lemma Linear.apply_none {l : Linear} {x : Mat} (r0 : Vec) (hr0 : r0 ∈ x)
    (hne : r0.length ≠ l.inF) : l.apply x = none := by
  have h : ¬(x.all (fun r => r.length == l.inF) = true) := by
    rw [List.all_eq_true]
    intro hall
    exact hne (by simpa using hall r0 hr0)
  unfold Linear.apply
  rw [if_neg h]

lemma linStep_none {l : Linear} {σ : ℚ → ℚ} {training : Bool}
    {mask : Nat → Nat → Bool} {x : Mat} (h : l.apply x = none) :
    linStep l σ training mask x = none := by
  unfold linStep
  rw [h]
  rfl

lemma dropout_false (mask : Nat → Nat → Bool) (x : Mat) : dropout false mask x = x := rfl

/-! ### The claims -/

/-- C7: the pairwise max-pool fusion step is commutative in its two inputs:
stacking a pair of feature rows in either order in front of the (2,1)
max-pool — at the level of one stacked slab and at the level of the whole
batched `cat`/`pool`/`squeeze` step — yields the same fused result. -/
theorem pairwise_maxpool_comm :
    (∀ a b : Vec, maxPool21 [a, b] = maxPool21 [b, a]) ∧
    (∀ x y : Mat, Option.map poolSqueeze1 (catUnsqueeze1 x y) =
      Option.map poolSqueeze1 (catUnsqueeze1 y x)) := by
  constructor
  · intro a b
    show [List.zipWith max a b] = [List.zipWith max b a]
    rw [List.zipWith_comm_of_comm max max_comm]
  · intro x y
    unfold catUnsqueeze1
    by_cases hc : (x.length == y.length
        && (List.zipWith (fun a b => a.length == b.length) x y).all id) = true
    · rw [if_pos hc, if_pos (by rw [← catUnsqueeze1_cond_comm]; exact hc)]
      rw [Option.map_some', Option.map_some', poolSqueeze1_pair, poolSqueeze1_pair]
      exact congrArg some (List.zipWith_comm_of_comm _
        (fun a b => List.zipWith_comm_of_comm max max_comm a b) x y)
    · rw [if_neg hc, if_neg (by rw [← catUnsqueeze1_cond_comm]; exact hc)]

/-- C8: `calcuate_accuracy` returns the number of positions at which the
predicted label array agrees with the true label array; in particular it
returns 3 on predictions `[0,1,2,3]` against targets `[0,1,2,2]`. -/
theorem calcuate_accuracy_counts_agreements :
    (∀ preds targets : List Int, calcuate_accuracy preds targets =
      (List.zipWith (fun p t => decide (p = t)) preds targets).count true) ∧
    calcuate_accuracy ([0, 1, 2, 3] : List Int) [0, 1, 2, 2] = 3 := by
  constructor
  · intro preds
    induction preds with
    | nil => intro targets; rfl
    | cons p ps ih =>
      intro targets
      cases targets with
      | nil => rfl
      | cons t ts =>
        show (if p = t then 1 else 0) + calcuate_accuracy ps ts =
          ((decide (p = t)) :: List.zipWith (fun p t => decide (p = t)) ps ts).count true
        rw [ih ts, List.count_cons]
        by_cases h : p = t
        · simp [h, Nat.add_comm]
        · simp [h]
  · decide

/-- C10: the logits of `forward` do not depend on the `pos_emb` argument —
it is accepted but never used in the computation. -/
theorem forward_ignores_pos_emb (m : RobertaClass) (σ : ℚ → ℚ) (training : Bool)
    (masks : Nat → Nat → Nat → Bool) (ids amask tt : List (List Int))
    (vf cd cn p1 p2 gcn pe1 pe2 vis : Mat) :
    m.forward σ training masks ids amask tt vf cd cn p1 p2 gcn pe1 vis =
      m.forward σ training masks ids amask tt vf cd cn p1 p2 gcn pe2 vis := rfl

/-- C5: with the training flag off (`model.eval()`), the random-zeroing
step is the identity, so `forward` is deterministic: its logits do not
depend on the sampled dropout masks, and repeated calls on the same batch
agree. -/
theorem forward_eval_deterministic (m : RobertaClass) (σ : ℚ → ℚ)
    (masks1 masks2 : Nat → Nat → Nat → Bool) (ids amask tt : List (List Int))
    (vf cd cn p1 p2 gcn pe vis : Mat) :
    m.forward σ false masks1 ids amask tt vf cd cn p1 p2 gcn pe vis =
      m.forward σ false masks2 ids amask tt vf cd cn p1 p2 gcn pe vis := by
  simp only [RobertaClass.forward, linStep, fuseStep, dropout_false]

/-- C3: `valid` binds the batch field named `gcn_bert_large` to the variable
`gcn_bert_base` and passes it to the model as the `gcn_bert_base` argument,
whereas `train` and `test_label_generator` bind the field named
`gcn_bert_base`; hence on a batch where those two fields differ the
validation path feeds the model a different feature source. -/
theorem valid_gcn_feature_source_swapped :
    (∀ d : BatchData, valid_gcn_bert_base_arg d = d.fields "gcn_bert_large") ∧
    (∀ d : BatchData, train_gcn_bert_base_arg d = d.fields "gcn_bert_base") ∧
    (∀ d : BatchData, test_gcn_bert_base_arg d = d.fields "gcn_bert_base") ∧
    (∀ (m : RobertaClass) (σ : ℚ → ℚ) (masks : Nat → Nat → Nat → Bool) (d : BatchData),
      valid_model_call m σ masks d =
        m.forward σ false masks (d.longs "ids") (d.longs "mask")
          (d.longs "token_type_ids") (d.fields "visual_feature")
          (d.fields "char_density") (d.fields "char_number") (d.fields "parsing1")
          (d.fields "parsing2") (d.fields "gcn_bert_large") (d.fields "pos_emb")
          (d.fields "visual")) ∧
    (∃ d : BatchData, valid_gcn_bert_base_arg d ≠ train_gcn_bert_base_arg d) := by
  refine ⟨fun d => rfl, fun d => rfl, fun d => rfl, fun m σ masks d => rfl, ?_⟩
  refine ⟨⟨fun _ => [], fun _ => [],
    fun s => if s = "gcn_bert_large" then [[1]] else [[0]]⟩, ?_⟩
  show (if "gcn_bert_large" = "gcn_bert_large" then [[(1 : ℚ)]] else [[0]]) ≠
    (if "gcn_bert_base" = "gcn_bert_large" then [[(1 : ℚ)]] else [[0]])
  rw [if_pos rfl, if_neg (by decide)]
  decide

/-- C4 (code bug): the notebook assigns `df_train['visual_embedding']` from
the *testing* visual table and `df_test['visual_embedding']` from the
*training* visual table, so the training frame's visual column comes from
the wrong table: at a concrete instance where the training visual table's
row 0 is `[1]` and the testing one's is `[2]`, `df_train` ends up with
`[2]`. -/
theorem visual_embedding_tables_swapped :
    (∀ (dtr dte : DataFrame) (tv sv : VisualTable),
      (assignVisualEmbeddings dtr dte tv sv).1.visual_embedding = sv.visual_embedding ∧
      (assignVisualEmbeddings dtr dte tv sv).2.visual_embedding = tv.visual_embedding) ∧
    (assignVisualEmbeddings ⟨["t0"], [0], []⟩ ⟨["s0"], [0], []⟩
        ⟨[[1]]⟩ ⟨[[2]]⟩).1.visual_embedding = [[2]] ∧
    ([[2]] : List Vec) ≠ [[1]] := by
  refine ⟨fun dtr dte tv sv => ⟨rfl, rfl⟩, rfl, by decide⟩

lemma validStep_fst (σ : ℚ → ℚ) (masks : Nat → Nat → Nat → Bool)
    (lossF : Mat → List Int → ℚ) (model : RobertaClass) (s : Option ValidStats)
    (data : BatchData) :
    (validStep σ masks lossF (model, s) data).1 = model := by
  cases s with
  | none => rfl
  | some s0 =>
    cases h : valid_model_call model σ masks data with
    | none => simp [validStep, h]
    | some outputs => simp [validStep, h]

lemma foldl_validStep_fst (σ : ℚ → ℚ) (masks : Nat → Nat → Nat → Bool)
    (lossF : Mat → List Int → ℚ) :
    ∀ (loader : List BatchData) (model : RobertaClass) (s : Option ValidStats),
      (loader.foldl (validStep σ masks lossF) (model, s)).1 = model := by
  intro loader
  induction loader with
  | nil => intro model s; rfl
  | cons d rest ih =>
    intro model s
    rw [List.foldl_cons]
    rcases hstep : validStep σ masks lossF (model, s) d with ⟨model2, s2⟩
    have hm : model2 = model := by
      have h3 := validStep_fst σ masks lossF model s d
      rw [hstep] at h3
      exact h3
    subst hm
    exact ih model2 s2

/-- C9: neither the forward pass nor the `valid` evaluation loop mutates
the model: as state transformers on the module they return the module they
were given (the source's `forward` assigns no attribute of `self`, and
`valid` runs under `torch.no_grad()` with no optimizer step). -/
theorem forward_and_valid_preserve_weights :
    (∀ (m : RobertaClass) (σ : ℚ → ℚ) (training : Bool)
        (masks : Nat → Nat → Nat → Bool) (ids amask tt : List (List Int))
        (vf cd cn p1 p2 gcn pe vis : Mat),
      (m.forwardS σ training masks ids amask tt vf cd cn p1 p2 gcn pe vis).1 = m) ∧
    (∀ (m : RobertaClass) (σ : ℚ → ℚ) (masks : Nat → Nat → Nat → Bool)
        (lossF : Mat → List Int → ℚ) (loader : List BatchData),
      (valid m σ masks lossF loader).1 = m) := by
  constructor
  · intro m σ training masks ids amask tt vf cd cn p1 p2 gcn pe vis
    rfl
  · intro m σ masks lossF loader
    unfold valid
    have h := foldl_validStep_fst σ masks lossF loader m (some ⟨0, 0, 0, 0, []⟩)
    rcases hf : loader.foldl (validStep σ masks lossF) (m, some ⟨0, 0, 0, 0, []⟩)
      with ⟨model, s⟩
    rw [hf] at h
    cases s <;> simp_all

/-- C1 (code bug): the final concatenation of `forward` takes the raw
`char_density` input rather than the fused density branch: on a miniature
identity-weight model with `char_density = [[0]]` and `char_number = [[5]]`
the code produces logits `[[0,0,0,0]]`, while the spec's fused-density
concatenation (`forwardSpecFusedCat`) produces `[[0,0,0,5]]`. -/
theorem forward_concats_raw_char_density :
    tinyModel.forward id false noMask [[0]] [[0]] [[0]]
        [[0]] [[0]] [[5]] [[0]] [[0]] [[0]] [[0]] [[0]] = some [[0, 0, 0, 0]] ∧
    tinyModel.forwardSpecFusedCat id false noMask [[0]] [[0]] [[0]]
        [[0]] [[0]] [[5]] [[0]] [[0]] [[0]] [[0]] [[0]] = some [[0, 0, 0, 5]] ∧
    some [[(0 : ℚ), 0, 0, 0]] ≠ some [[(0 : ℚ), 0, 0, 5]] := by
  refine ⟨?_, ?_, by decide⟩
  · norm_num [RobertaClass.forward, linStep, fuseStep, tinyModel, idLinear, idMat,
      Linear.apply, dot, mapTanh, dropout, catUnsqueeze1, poolSqueeze1, catDim1,
      firstToken, maxPool21, noMask, List.range_succ, List.replicate_succ]
  · norm_num [RobertaClass.forwardSpecFusedCat, linStep, fuseStep, tinyModel, idLinear,
      idMat, Linear.apply, dot, mapTanh, dropout, catUnsqueeze1, poolSqueeze1, catDim1,
      firstToken, maxPool21, noMask, List.range_succ, List.replicate_succ]

/-- C2 counterexample: with the documented all-768 widths — in particular a
768-wide `visual` embedding — the forward pass of an `__init__`-shaped model
hits a dimension mismatch at `hidden1` (which expects width 2048) on a batch
of 2, instead of producing a (2, 4) logit tensor. -/
theorem forward_visual768_dim_mismatch :
    zeroModel.forward id false noMask [[0], [0]] [[0], [0]] [[0], [0]]
      (constMat 2 768) (constMat 2 768) (constMat 2 768) (constMat 2 768)
      (constMat 2 768) (constMat 2 768) (constMat 2 768) (constMat 2 768) = none := by
  obtain ⟨wPre, wh1, wh2, wh3, _, _, _, _, _, _, _⟩ := zeroModel_init_wf
  have hpool0 : Shape (firstToken (zeroModel.l1 [[0], [0]] [[0], [0]] [[0], [0]])) 2 768 := by
    constructor
    · rw [firstToken_length, zeroModel_l1_length]
      rfl
    · intro r hr
      simp only [firstToken, List.mem_map] at hr
      obtain ⟨s, hs, rfl⟩ := hr
      exact zeroModel_l1_width _ _ _ s hs
  obtain ⟨p0, hp0, hp0s⟩ := linStep_shape zeroModel.pre_classifier id false
    (noMask 0) wPre hpool0
  obtain ⟨pl, hpl, _⟩ := fuseStep_shape zeroModel.h1 id false
    (noMask 1) wh1 hp0s (constMat_shape 2 768)
  obtain ⟨pr, hpr, _⟩ := fuseStep_shape zeroModel.h2 id false
    (noMask 2) wh2 (constMat_shape 2 768) (constMat_shape 2 768)
  obtain ⟨de, hde, _⟩ := fuseStep_shape zeroModel.h3 id false
    (noMask 3) wh3 (constMat_shape 2 768) (constMat_shape 2 768)
  have hvisnone : linStep zeroModel.hidden1 id false (noMask 4) (constMat 2 768) = none := by
    apply linStep_none
    apply Linear.apply_none (List.replicate 768 0)
      (List.mem_replicate.2 ⟨by decide, rfl⟩)
    rw [List.length_replicate]
    exact (by decide : (768 : Nat) ≠ 2048)
  simp only [RobertaClass.forward, hp0, Option.some_bind, hpl, hpr, hde,
    hvisnone, Option.none_bind]

/-- C2 (amended): for a batch of 2 with width-768 auxiliary features, a
width-2048 `visual` embedding (the width `hidden1` expects), the `__init__`
layer dimensions (class count 4), and an encoder that preserves the batch
and emits width-768 aggregate states, `forward` succeeds and returns a
(2, 4) logit tensor. -/
theorem forward_batch2_returns_2x4 (m : RobertaClass) (σ : ℚ → ℚ) (training : Bool)
    (masks : Nat → Nat → Nat → Bool) (ids amask tt : List (List Int))
    (vf cd cn p1 p2 gcn pe vis : Mat)
    (hwf : m.init_wf)
    (hl1len : (m.l1 ids amask tt).length = 2)
    (hl1w : ∀ s ∈ m.l1 ids amask tt, (s.headD []).length = 768)
    (hvf : Shape vf 2 768) (hcd : Shape cd 2 768) (hcn : Shape cn 2 768)
    (hp1 : Shape p1 2 768) (hp2 : Shape p2 2 768) (hgcn : Shape gcn 2 768)
    (hvis : Shape vis 2 2048) :
    ∃ out, m.forward σ training masks ids amask tt vf cd cn p1 p2 gcn pe vis = some out ∧
      out.length = 2 ∧ ∀ r ∈ out, r.length = 4 := by
  obtain ⟨out, hout, houts⟩ := forward_shape m σ training masks ids amask tt
    vf cd cn p1 p2 gcn pe vis 2 hwf hl1len hl1w hvf hcd hcn hp1 hp2 hgcn hvis
  exact ⟨out, hout, houts.1, houts.2⟩

theorem forward_batch2_returns_2x4_witness :
    ∃ out, zeroModel.forward id false noMask [[0], [0]] [[0], [0]] [[0], [0]]
        (constMat 2 768) (constMat 2 768) (constMat 2 768) (constMat 2 768)
        (constMat 2 768) (constMat 2 768) (constMat 2 768) (constMat 2 2048)
        = some out ∧ out.length = 2 ∧ ∀ r ∈ out, r.length = 4 :=
  forward_batch2_returns_2x4 zeroModel id false noMask [[0], [0]] [[0], [0]] [[0], [0]]
    (constMat 2 768) (constMat 2 768) (constMat 2 768) (constMat 2 768)
    (constMat 2 768) (constMat 2 768) (constMat 2 768) (constMat 2 2048)
    zeroModel_init_wf (zeroModel_l1_length _ _ _) (zeroModel_l1_width _ _ _)
    (constMat_shape 2 768) (constMat_shape 2 768) (constMat_shape 2 768)
    (constMat_shape 2 768) (constMat_shape 2 768) (constMat_shape 2 768)
    (constMat_shape 2 2048)

/-- C6: whenever `forward` succeeds on a batch, with the classifier layer of
`__init__` (`Linear(512, 4)`, i.e. 4 configured classes) and a
batch-preserving encoder, the result has exactly one row per example of the
batch and exactly 4 logits per row. -/
theorem forward_logit_rows_have_width_4 (m : RobertaClass) (σ : ℚ → ℚ)
    (training : Bool) (masks : Nat → Nat → Nat → Bool)
    (ids amask tt : List (List Int)) (vf cd cn p1 p2 gcn pe vis out : Mat)
    (hcls : m.classifier.hasDims 512 4)
    (hl1 : (m.l1 ids amask tt).length = ids.length)
    (h : m.forward σ training masks ids amask tt vf cd cn p1 p2 gcn pe vis = some out) :
    out.length = ids.length ∧ ∀ r ∈ out, r.length = 4 := by
  obtain ⟨hlen, hrow⟩ := forward_inv h
  refine ⟨by rw [hlen, hl1], ?_⟩
  intro r hr
  rw [hrow r hr, hcls.2.2.1, hcls.2.2.2.2]
  exact min_self 4

theorem forward_logit_rows_have_width_4_witness :
    ∃ out, zeroModel.forward id false noMask [[0], [0], [0]] [[0], [0], [0]]
        [[0], [0], [0]] (constMat 3 768) (constMat 3 768) (constMat 3 768)
        (constMat 3 768) (constMat 3 768) (constMat 3 768) (constMat 3 768)
        (constMat 3 2048) = some out ∧
      out.length = 3 ∧ ∀ r ∈ out, r.length = 4 := by
  obtain ⟨out, hout, _⟩ := forward_shape zeroModel id false noMask
    [[0], [0], [0]] [[0], [0], [0]] [[0], [0], [0]] (constMat 3 768)
    (constMat 3 768) (constMat 3 768) (constMat 3 768) (constMat 3 768)
    (constMat 3 768) (constMat 3 768) (constMat 3 2048) 3 zeroModel_init_wf
    (zeroModel_l1_length _ _ _) (zeroModel_l1_width _ _ _) (constMat_shape 3 768)
    (constMat_shape 3 768) (constMat_shape 3 768) (constMat_shape 3 768)
    (constMat_shape 3 768) (constMat_shape 3 768) (constMat_shape 3 2048)
  have h4 := forward_logit_rows_have_width_4 zeroModel id false noMask
    [[0], [0], [0]] [[0], [0], [0]] [[0], [0], [0]] (constMat 3 768)
    (constMat 3 768) (constMat 3 768) (constMat 3 768) (constMat 3 768)
    (constMat 3 768) (constMat 3 768) (constMat 3 2048) out
    (zeroLinear_hasDims 512 4) (zeroModel_l1_length _ _ _) hout
  exact ⟨out, hout, h4.1, h4.2⟩

end Funsd
